import Mathlib

/-!
# Verification of the `halo2_hi` example circuit

Shallow embedding of the example circuit in `src/main.rs` (the circuit
`constant * (a * a + b * c) = d` built from two advice columns, one instance
column, one fixed column and the two selectors `s_mul`, `s_add`), together
with a model of the circuit-arrangement/verification engine it runs on
(sequential floor planner, region-based assignment, copy constraints, and the
brute-force mock verifier).  The engine itself lives in the external
`halo2_proofs` crate, so it is modelled from the specification; the circuit,
chip operations and gates are translated from `src/main.rs`.

Witness values are `Option F`: `some v` is a Known value, `none` is Unknown
(the `Value<F>` type of the source).  The field is kept abstract as a
commutative ring with decidable equality, matching the spec's "opaque Field
type" external collaborator; the concrete claims instantiate it with the
Pasta base field `Fp = ZMod pastaP`.
-/

namespace Halo2Hi

/-- Which column a cell lives in: one of the advice columns (indexed),
the single instance column, or the single fixed (constant) column. -/
inductive ColRef where
  | adviceCol (i : Nat)
  | instanceCol
  | fixedCol
  deriving DecidableEq, Repr

/-- A cell is a column together with an absolute row index. -/
structure Cell where
  col : ColRef
  row : Nat
  deriving DecidableEq, Repr

/-- The two selectors declared in `MyCircuit::configure`. -/
inductive Sel where
  | sMul
  | sAdd
  deriving DecidableEq, Repr

/-- Gate expressions: column queries at relative rotations, selector queries,
and the ring operations, as built in `MyCircuit::configure`. -/
inductive Expr where
  | adviceQ (col : Nat) (rot : Nat)
  | selQ (s : Sel)
  | add (a b : Expr)
  | sub (a b : Expr)
  | mul (a b : Expr)
  deriving DecidableEq, Repr

/-- Errors of the engine, from the spec's error model: `Synthesis` (a value
was needed but Unknown) and `OutOfRows` (layout exceeded `2 ^ k` rows). -/
inductive Err where
  | synthesisErr
  | outOfRows
  deriving DecidableEq, Repr

/-- The result of an assignment: a cell handle plus its resolved value
(`AssignedCell` wrapped in `Number` in the source). -/
structure Number (F : Type) where
  cell : Cell
  val : Option F
  deriving DecidableEq, Repr

/-- Modelled from the spec: the synthesis/assignment state — the advice grid,
the fixed column, the two selector columns, the accumulated copy constraints,
and the sequential floor planner's next free row. -/
structure SynthState (F : Type) where
  advice : Nat → Nat → Option F
  fixedv : Nat → Option F
  selMul : Nat → Bool
  selAdd : Nat → Bool
  copies : List (Cell × Cell)
  nextRow : Nat

section Engine

variable {F : Type} [CommRing F] [DecidableEq F]

/-- Multiplication on possibly-unknown values.  A side that is known to be
zero absorbs an Unknown partner (this is how the mock verifier evaluates a
gate whose selector is off on rows with unassigned cells: `0 * poison = 0`). -/
def vmul (x y : Option F) : Option F :=
  if x = some 0 ∨ y = some 0 then some 0
  else
    match x, y with
    | some a, some b => some (a * b)
    | _, _ => none

/-- Addition on possibly-unknown values: Unknown propagates. -/
def vadd : Option F → Option F → Option F
  | some a, some b => some (a + b)
  | _, _ => none

/-- Subtraction on possibly-unknown values: Unknown propagates. -/
def vsub : Option F → Option F → Option F
  | some a, some b => some (a - b)
  | _, _ => none

/-- Modelled from the spec: evaluate a gate expression at absolute row `r`,
resolving each advice query to `table[col][r + rot]` and each selector query
to `1` if enabled at `r` else `0`. -/
def evalExpr (st : SynthState F) (r : Nat) : Expr → Option F
  | .adviceQ c rot => st.advice c (r + rot)
  | .selQ .sMul => some (if st.selMul r then 1 else 0)
  | .selQ .sAdd => some (if st.selAdd r then 1 else 0)
  | .add a b => vadd (evalExpr st r a) (evalExpr st r b)
  | .sub a b => vsub (evalExpr st r a) (evalExpr st r b)
  | .mul a b => vmul (evalExpr st r a) (evalExpr st r b)

/-- The `"mul"` gate from `MyCircuit::configure`:
`(lhs * rhs - out) * s_mul` with `lhs = advice[0]@cur`, `rhs = advice[1]@cur`,
`out = advice[0]@next`. -/
def mulGate : Expr :=
  .mul (.sub (.mul (.adviceQ 0 0) (.adviceQ 1 0)) (.adviceQ 0 1)) (.selQ .sMul)

/-- The `"add"` gate from `MyCircuit::configure`:
`(lhs + rhs - out) * s_add` with `lhs = advice[0]@cur`, `rhs = advice[1]@cur`,
`out = advice[0]@next`. -/
def addGate : Expr :=
  .mul (.sub (.add (.adviceQ 0 0) (.adviceQ 1 0)) (.adviceQ 0 1)) (.selQ .sAdd)

/-- Write a value into an advice cell. -/
def setAdvice (st : SynthState F) (c r : Nat) (v : Option F) : SynthState F :=
  { st with advice := fun c2 r2 => if c2 = c ∧ r2 = r then v else st.advice c2 r2 }

/-- Write a value into the fixed (constant) column. -/
def setFixed (st : SynthState F) (r : Nat) (v : Option F) : SynthState F :=
  { st with fixedv := fun r2 => if r2 = r then v else st.fixedv r2 }

/-- Enable the `s_mul` selector at absolute row `r`. -/
def enableMul (st : SynthState F) (r : Nat) : SynthState F :=
  { st with selMul := fun r2 => if r2 = r then true else st.selMul r2 }

/-- Enable the `s_add` selector at absolute row `r`. -/
def enableAdd (st : SynthState F) (r : Nat) : SynthState F :=
  { st with selAdd := fun r2 => if r2 = r then true else st.selAdd r2 }

/-- Record a copy constraint between two cells. -/
def addCopy (st : SynthState F) (c1 c2 : Cell) : SynthState F :=
  { st with copies := (c1, c2) :: st.copies }

/-- Modelled from the spec: the sequential floor planner opens a region of
`size` rows at `nextRow`, failing with `OutOfRows` past the capacity `n`. -/
def regionStart (n size : Nat) (st : SynthState F) :
    Except Err (Nat × SynthState F) :=
  if st.nextRow + size ≤ n then
    .ok (st.nextRow, { st with nextRow := st.nextRow + size })
  else .error .outOfRows

/-- `MyChip::load_private`: a 1-row region assigning the private value into
`advice[0]` at relative row 0; no selector enabled. -/
def load_private (n : Nat) (v : Option F) (st : SynthState F) :
    Except Err (Number F × SynthState F) := do
  let (r, st) ← regionStart n 1 st
  let st := setAdvice st 0 r v
  .ok (⟨⟨.adviceCol 0, r⟩, v⟩, st)

/-- `MyChip::load_constant`: a 1-row region assigning the constant into
`advice[0]` at relative row 0, with an automatic copy constraint to the
fixed column cell holding that constant. -/
def load_constant (n : Nat) (c : F) (st : SynthState F) :
    Except Err (Number F × SynthState F) := do
  let (r, st) ← regionStart n 1 st
  let st := setAdvice st 0 r (some c)
  let st := setFixed st r (some c)
  let st := addCopy st ⟨.adviceCol 0, r⟩ ⟨.fixedCol, r⟩
  .ok (⟨⟨.adviceCol 0, r⟩, some c⟩, st)

/-- `AssignedCell::copy_advice`: assign the source value into advice column
`c` at row `r` and record a copy constraint back to the source cell. -/
def copy_advice (a : Number F) (st : SynthState F) (c r : Nat) : SynthState F :=
  addCopy (setAdvice st c r a.val) a.cell ⟨.adviceCol c, r⟩

/-- `MyChip::mul`: a 2-row region — enable `s_mul` at relative row 0, copy
`a` into `advice[0]` and `b` into `advice[1]` at row 0 (with copy
constraints), and assign the product (Known only if both inputs are Known)
into `advice[0]` at relative row 1. -/
def mul (n : Nat) (a b : Number F) (st : SynthState F) :
    Except Err (Number F × SynthState F) := do
  let (r, st) ← regionStart n 2 st
  let st := enableMul st r
  let st := copy_advice a st 0 r
  let st := copy_advice b st 1 r
  let v := a.val.bind fun x => b.val.map fun y => x * y
  let st := setAdvice st 0 (r + 1) v
  .ok (⟨⟨.adviceCol 0, r + 1⟩, v⟩, st)

/-- `MyChip::add`: identical shape to `mul` but enabling `s_add` and
assigning the sum. -/
def add (n : Nat) (a b : Number F) (st : SynthState F) :
    Except Err (Number F × SynthState F) := do
  let (r, st) ← regionStart n 2 st
  let st := enableAdd st r
  let st := copy_advice a st 0 r
  let st := copy_advice b st 1 r
  let v := a.val.bind fun x => b.val.map fun y => x + y
  let st := setAdvice st 0 (r + 1) v
  .ok (⟨⟨.adviceCol 0, r + 1⟩, v⟩, st)

/-- `MyChip::expose_public`: record a copy constraint between the number's
cell and the instance column at absolute row `row`; assigns nothing. -/
def expose_public (a : Number F) (row : Nat) (st : SynthState F) :
    SynthState F :=
  addCopy st a.cell ⟨.instanceCol, row⟩

/-- The circuit of `src/main.rs`: a constant plus three witness values. -/
structure MyCircuit (F : Type) where
  constant : F
  a : Option F
  b : Option F
  c : Option F

/-- `MyCircuit::without_witnesses`: `Self::default()` — the derived default,
with the constant at the field's default (zero) and `a`, `b`, `c` Unknown. -/
def without_witnesses : MyCircuit F := ⟨0, none, none, none⟩

/-- The empty assignment state: every cell Unknown, every selector off,
no copy constraints, the floor planner at row 0. -/
def initState : SynthState F :=
  ⟨fun _ _ => none, fun _ => none, fun _ => false, fun _ => false, [], 0⟩

/-- `MyCircuit::synthesize`: load `a`, `b`, `c` privately, load the
constant, compute `aa = a*a`, `bc = b*c`, `aabc = aa + bc`,
`d = constant * aabc`, and expose `d` at instance row 0. -/
def synthesize (n : Nat) (circ : MyCircuit F) (st : SynthState F) :
    Except Err (SynthState F) := do
  let (a, st) ← load_private n circ.a st
  let (b, st) ← load_private n circ.b st
  let (c, st) ← load_private n circ.c st
  let (k, st) ← load_constant n circ.constant st
  let (aa, st) ← mul n a a st
  let (bc, st) ← mul n b c st
  let (aabc, st) ← add n aa bc st
  let (d, st) ← mul n k aabc st
  .ok (expose_public d 0 st)

/-- A verification failure: a gate identity that evaluated nonzero at a row,
or a copy constraint whose two cells do not resolve to equal Known values. -/
inductive Violation where
  | gate (name : String) (row : Nat)
  | copyV (c1 c2 : Cell)
  deriving DecidableEq, Repr

/-- Modelled from the spec: the mock prover — the table capacity, the filled
assignment state, and the public input vector of the instance column. -/
structure MockProver (F : Type) where
  n : Nat
  state : SynthState F
  pubInput : List F

/-- `MockProver::run`: synthesize the circuit into an empty table of
`2 ^ k` rows. -/
def MockProver.run (k : Nat) (circ : MyCircuit F) (pub : List F) :
    Except Err (MockProver F) := do
  let st ← synthesize (2 ^ k) circ initState
  .ok ⟨2 ^ k, st, pub⟩

/-- Resolve a cell to its value: advice and fixed cells from the table,
instance cells from the public input vector. -/
def resolveCell (st : SynthState F) (pub : List F) : Cell → Option F
  | ⟨.adviceCol i, r⟩ => st.advice i r
  | ⟨.instanceCol, r⟩ => pub.get? r
  | ⟨.fixedCol, r⟩ => st.fixedv r

/-- Concatenation of the lists produced by `f` over a list (used to collect
all violations without short-circuiting). -/
def concatMap (f : α → List β) : List α → List β
  | [] => []
  | x :: xs => f x ++ concatMap f xs

/-- Gate violations at one row: each of the two gates whose expression does
not evaluate to zero contributes one violation. -/
def gateViolations (st : SynthState F) (r : Nat) : List Violation :=
  (if evalExpr st r mulGate = some 0 then [] else [.gate "mul" r]) ++
    (if evalExpr st r addGate = some 0 then [] else [.gate "add" r])

/-- Copy-constraint check: a violation unless both cells resolve to equal
Known values. -/
def copyCheck (st : SynthState F) (pub : List F) (p : Cell × Cell) :
    List Violation :=
  match resolveCell st pub p.1, resolveCell st pub p.2 with
  | some x, some y => if x = y then [] else [.copyV p.1 p.2]
  | _, _ => [.copyV p.1 p.2]

/-- Modelled from the spec: all violations — every gate at every row of the
table, then every copy constraint, collected exhaustively. -/
def violationsOf (p : MockProver F) : List Violation :=
  concatMap (fun r => gateViolations p.state r) (List.range p.n) ++
    concatMap (fun pr => copyCheck p.state p.pubInput pr) p.state.copies

/-- `MockProver::verify`: success when there are no violations, otherwise
the full list of violations. -/
def MockProver.verify (p : MockProver F) : Except (List Violation) Unit :=
  if violationsOf p = [] then .ok () else .error (violationsOf p)

end Engine

end Halo2Hi

namespace Halo2Hi

/-- The modulus of the Pasta base field `Fp` over which `main` runs the
concrete scenario. -/
def pastaP : Nat :=
  28948022309329048855892746252171976963363056481941560715954676764349967630337

/-- The concrete field of `main`: the Pasta base field. -/
abbrev Fp := ZMod pastaP

instance : Fact (1 < pastaP) := ⟨by norm_num [pastaP]⟩

/-- A tiny 2-row table exercising the `mul` gate at row 0
(`2 * 2 = 4`): a concrete instance for the gate-semantics theorems. -/
def mulWitState : SynthState Int :=
  { advice := fun c r =>
      if c = 0 ∧ r = 0 then some 2
      else if c = 1 ∧ r = 0 then some 2
      else if c = 0 ∧ r = 1 then some 4
      else none,
    fixedv := fun _ => none,
    selMul := fun r => if r = 0 then true else false,
    selAdd := fun _ => false,
    copies := [],
    nextRow := 2 }

/-- A tiny 2-row table exercising the `add` gate at row 0
(`4 + 12 = 16`): a concrete instance for the gate-semantics theorems. -/
def addWitState : SynthState Int :=
  { advice := fun c r =>
      if c = 0 ∧ r = 0 then some 4
      else if c = 1 ∧ r = 0 then some 12
      else if c = 0 ∧ r = 1 then some 16
      else none,
    fixedv := fun _ => none,
    selMul := fun _ => false,
    selAdd := fun r => if r = 0 then true else false,
    copies := [],
    nextRow := 2 }

section Proofs

variable {F : Type} [CommRing F] [DecidableEq F]

@[simp] lemma vmul_some (x y : F) : vmul (some x) (some y) = some (x * y) := by
  unfold vmul
  split_ifs with h
  · rcases h with h | h <;> simp_all
  · rfl

@[simp] lemma vmul_zero_right (x : Option F) : vmul x (some 0) = some 0 := by
  simp [vmul]

omit [DecidableEq F] in
@[simp] lemma vadd_some (x y : F) : vadd (some x) (some y) = some (x + y) :=
  rfl

omit [DecidableEq F] in
@[simp] lemma vsub_some (x y : F) : vsub (some x) (some y) = some (x - y) :=
  rfl

@[simp] lemma concatMap_nil (f : α → List β) : concatMap f [] = [] := rfl

@[simp] lemma concatMap_cons (f : α → List β) (x : α) (xs : List α) :
    concatMap f (x :: xs) = f x ++ concatMap f xs := rfl

lemma concatMap_eq_nil_iff (f : α → List β) (l : List α) :
    concatMap f l = [] ↔ ∀ x ∈ l, f x = [] := by
  induction l with
  | nil => simp
  | cons x xs ih => simp [ih]

lemma verify_ok_iff (p : MockProver F) :
    MockProver.verify p = .ok () ↔ violationsOf p = [] := by
  unfold MockProver.verify
  split_ifs with h <;> simp [h]

/-- Characterization of running the circuit on Known witnesses `a, b, c`
with constant `k` against a one-element public input `[e]`: the run
succeeds, cell `(advice 0, 11)` holds `d = k * (a * a + b * c)`, and the
gates and internal copies all hold, leaving the instance copy of `d` as the
only possible violation. -/
lemma master (k a b c e : F) :
    ∃ p, MockProver.run 5 ⟨k, some a, some b, some c⟩ [e] = .ok p ∧
      p.state.advice 0 11 = some (k * (a * a + b * c)) ∧
      violationsOf p =
        (if k * (a * a + b * c) = e then [] else
          [.copyV ⟨.adviceCol 0, 11⟩ ⟨.instanceCol, 0⟩]) := by
  refine ⟨_, rfl, ?_, ?_⟩
  · simp [MockProver.run, synthesize, load_private, load_constant, mul, add,
      expose_public, copy_advice, regionStart, setAdvice, setFixed, addCopy,
      enableMul, enableAdd, initState]
  · simp [MockProver.run, synthesize, load_private, load_constant, mul, add,
      expose_public, copy_advice, regionStart, setAdvice, setFixed, addCopy,
      enableMul, enableAdd, initState, violationsOf, gateViolations, copyCheck,
      resolveCell, evalExpr, mulGate, addGate, List.range_succ]

/-- If verification reports no violations then both gate expressions
evaluate to zero at every row of the table. -/
lemma violations_nil_gate (st : SynthState F) (pub : List F) (n r : Nat)
    (hnil : violationsOf ⟨n, st, pub⟩ = []) (hr : r < n) :
    evalExpr st r mulGate = some 0 ∧ evalExpr st r addGate = some 0 := by
  unfold violationsOf at hnil
  rw [List.append_eq_nil] at hnil
  have hg := (concatMap_eq_nil_iff _ _).mp hnil.1 r (List.mem_range.mpr hr)
  unfold gateViolations at hg
  rw [List.append_eq_nil] at hg
  constructor
  · by_cases hc : evalExpr st r mulGate = some 0
    · exact hc
    · simp [hc] at hg
  · by_cases hc : evalExpr st r addGate = some 0
    · exact hc
    · simp [hc] at hg

/-- C1: for every choice of field values `a`, `b`, `c`, `constant`,
synthesizing the circuit with witnesses `(a, b, c, constant)` and running
the verifier with the single public input vector
`[constant * (a * a + b * c)]` succeeds: `verify` returns `Ok` with no
violations. -/
theorem C1_circuit_verifies (k a b c : F) :
    ∃ p, MockProver.run 5 ⟨k, some a, some b, some c⟩
        [k * (a * a + b * c)] = .ok p ∧
      p.verify = .ok () := by
  obtain ⟨p, hrun, _, hv⟩ := master k a b c (k * (a * a + b * c))
  exact ⟨p, hrun, by simp [MockProver.verify, hv]⟩

/-- C2: with the concrete witnesses `a = 10`, `b = 5`, `c = 3`,
`constant = 2` over the Pasta base field, the exposed public output cell
(advice column 0, row 11, where `d` is assigned) holds
`d = 230 = 2 * (10 * 10 + 5 * 3)`, and the mock prover at `k = 5` with
public input `[230]` verifies successfully. -/
theorem C2_concrete_scenario :
    ∃ p, MockProver.run 5 (⟨2, some 10, some 5, some 3⟩ : MyCircuit Fp)
        [230] = .ok p ∧
      p.state.advice 0 11 = some 230 ∧ p.verify = .ok () := by
  have h230 : (2 : Fp) * (10 * 10 + 5 * 3) = 230 := by norm_num
  obtain ⟨p, hrun, hd, hv⟩ := master (F := Fp) 2 10 5 3 230
  refine ⟨p, hrun, ?_, ?_⟩
  · rw [hd, h230]
  · simp [MockProver.verify, hv, h230]

/-- C3: with the same witnesses but public input vector `[231]`,
verification fails, and the list of violations contains exactly one entry:
the copy/instance mismatch between the cell where `d` was exposed (advice
column 0, row 11) and the instance column at row 0. -/
theorem C3_tampered_public_input :
    ∃ p, MockProver.run 5 (⟨2, some 10, some 5, some 3⟩ : MyCircuit Fp)
        [231] = .ok p ∧
      p.verify = .error [.copyV ⟨.adviceCol 0, 11⟩ ⟨.instanceCol, 0⟩] := by
  have h230 : (2 : Fp) * (10 * 10 + 5 * 3) = 230 := by norm_num
  have hne : (2 : Fp) * (10 * 10 + 5 * 3) ≠ 231 := by
    rw [h230]
    intro heq
    have h1 : (231 - 230 : Fp) = 0 := by rw [← heq]; exact sub_self _
    have h2 : (231 - 230 : Fp) = 1 := by norm_num
    rw [h2] at h1
    exact one_ne_zero h1
  obtain ⟨p, hrun, _, hv⟩ := master (F := Fp) 2 10 5 3 231
  rw [if_neg hne] at hv
  exact ⟨p, hrun, by simp [MockProver.verify, hv]⟩

/-- C4: the `"mul"` gate is `(lhs * rhs - out) * s_mul` with
`lhs = advice[0]` and `rhs = advice[1]` at the current row and
`out = advice[0]` at the next row; consequently, in any table that
verifies, at every row where the `mul` selector is active the known table
values satisfy `table[advice0][row + 1] = table[advice0][row] *
table[advice1][row]`, and a table violating this equality is rejected. -/
theorem C4_mul_gate (st : SynthState F) (pub : List F) (n r : Nat)
    (x y z : F) (hr : r < n) (hs : st.selMul r = true)
    (hx : st.advice 0 r = some x) (hy : st.advice 1 r = some y)
    (hz : st.advice 0 (r + 1) = some z) :
    (MockProver.verify ⟨n, st, pub⟩ = .ok () → z = x * y) ∧
    (z ≠ x * y → MockProver.verify ⟨n, st, pub⟩ ≠ .ok ()) := by
  have main : MockProver.verify ⟨n, st, pub⟩ = .ok () → z = x * y := by
    intro hver
    have hnil := (verify_ok_iff _).mp hver
    have hg := (violations_nil_gate st pub n r hnil hr).1
    unfold mulGate at hg
    simp only [evalExpr] at hg
    rw [Nat.add_zero] at hg
    rw [hx, hy, hz, hs] at hg
    simp at hg
    exact (sub_eq_zero.mp hg).symm
  exact ⟨main, fun hne hver => hne (main hver)⟩

/-- C5: the `"add"` gate has the identical shape to `"mul"` except for the
operator and selector: `(lhs + rhs - out) * s_add` with the same queries,
so in any verifying table, at every row where the `add` selector is active
the known values satisfy `table[advice0][row + 1] = table[advice0][row] +
table[advice1][row]`, and a table violating this is rejected. -/
theorem C5_add_gate (st : SynthState F) (pub : List F) (n r : Nat)
    (x y z : F) (hr : r < n) (hs : st.selAdd r = true)
    (hx : st.advice 0 r = some x) (hy : st.advice 1 r = some y)
    (hz : st.advice 0 (r + 1) = some z) :
    (MockProver.verify ⟨n, st, pub⟩ = .ok () → z = x + y) ∧
    (z ≠ x + y → MockProver.verify ⟨n, st, pub⟩ ≠ .ok ()) := by
  have main : MockProver.verify ⟨n, st, pub⟩ = .ok () → z = x + y := by
    intro hver
    have hnil := (verify_ok_iff _).mp hver
    have hg := (violations_nil_gate st pub n r hnil hr).2
    unfold addGate at hg
    simp only [evalExpr] at hg
    rw [Nat.add_zero] at hg
    rw [hx, hy, hz, hs] at hg
    simp at hg
    exact (sub_eq_zero.mp hg).symm
  exact ⟨main, fun hne hver => hne (main hver)⟩

/-- C6: the `mul` operation opens a 2-row region in which row 0 receives
copies of `a`'s and `b`'s values into `advice[0]` and `advice[1]` with copy
constraints back to `a.cell` and `b.cell`, the `mul` selector is enabled at
row 0, and row 1 of `advice[0]` receives the product value, which is Known
if and only if both input values are Known. -/
theorem C6_mul_region (a b : Number F) (st : SynthState F) (n : Nat)
    (h : st.nextRow + 2 ≤ n) :
    ∃ out st2, mul n a b st = .ok (out, st2) ∧
      st2.nextRow = st.nextRow + 2 ∧
      st2.advice 0 st.nextRow = a.val ∧
      st2.advice 1 st.nextRow = b.val ∧
      (a.cell, (⟨.adviceCol 0, st.nextRow⟩ : Cell)) ∈ st2.copies ∧
      (b.cell, (⟨.adviceCol 1, st.nextRow⟩ : Cell)) ∈ st2.copies ∧
      st2.selMul st.nextRow = true ∧
      st2.advice 0 (st.nextRow + 1) = out.val ∧
      out.val = (a.val.bind fun x => b.val.map fun y => x * y) ∧
      (out.val.isSome ↔ (a.val.isSome ∧ b.val.isSome)) := by
  refine ⟨⟨⟨.adviceCol 0, st.nextRow + 1⟩,
      a.val.bind fun x => b.val.map fun y => x * y⟩,
    setAdvice
      (copy_advice b
        (copy_advice a
          (enableMul { st with nextRow := st.nextRow + 2 } st.nextRow)
          0 st.nextRow)
        1 st.nextRow)
      0 (st.nextRow + 1) (a.val.bind fun x => b.val.map fun y => x * y),
    ?_, ?_, ?_, ?_, ?_, ?_, ?_, ?_, rfl, ?_⟩
  · unfold mul regionStart
    rw [if_pos h]
    rfl
  · rfl
  · simp [copy_advice, setAdvice, addCopy, enableMul]
  · simp [copy_advice, setAdvice, addCopy, enableMul]
  · simp [copy_advice, setAdvice, addCopy, enableMul]
  · simp [copy_advice, setAdvice, addCopy, enableMul]
  · simp [copy_advice, setAdvice, addCopy, enableMul]
  · simp [copy_advice, setAdvice, addCopy, enableMul]
  · cases ha : a.val <;> cases hb : b.val <;> simp

/-- C7: at row capacity `k = 5` (32 rows) the sequential floor planner
places the circuit's eight regions — four 1-row regions for
`load_private`/`load_constant` and four 2-row regions for `mul`/`add`, 12
rows in all — within table capacity, so synthesis never reaches the
`OutOfRows` error and `MockProver.run 5` succeeds for any witnesses. -/
theorem C7_layout_fits (k : F) (va vb vc : Option F) (pub : List F) :
    (∃ st, synthesize (2 ^ 5) ⟨k, va, vb, vc⟩ initState = .ok st ∧
      st.nextRow = 12) ∧
    ∃ p, MockProver.run 5 ⟨k, va, vb, vc⟩ pub = .ok p := by
  exact ⟨⟨_, rfl, rfl⟩, _, rfl⟩

/-- C8: `without_witnesses` produces a circuit whose witness values `a`,
`b`, `c` are all Unknown, and synthesizing it succeeds without a
`Synthesis` error, because `mul` and `add` propagate Unknown through their
value computation instead of reading it. -/
theorem C8_without_witnesses :
    (without_witnesses (F := F)).a = none ∧
    (without_witnesses (F := F)).b = none ∧
    (without_witnesses (F := F)).c = none ∧
    ∃ st, synthesize (2 ^ 5) (without_witnesses (F := F)) initState =
      .ok st := by
  exact ⟨rfl, rfl, rfl, _, rfl⟩

/-- C9: `expose_public number row` records a copy constraint between
`number`'s cell and the instance column at absolute row `row`, and leaves
the assignment table unchanged — no advice, fixed or selector cell is
assigned and the floor planner position does not move. -/
theorem C9_expose_public_frame (a : Number F) (row : Nat)
    (st : SynthState F) :
    (expose_public a row st).copies =
        (a.cell, (⟨.instanceCol, row⟩ : Cell)) :: st.copies ∧
    (expose_public a row st).advice = st.advice ∧
    (expose_public a row st).fixedv = st.fixedv ∧
    (expose_public a row st).selMul = st.selMul ∧
    (expose_public a row st).selAdd = st.selAdd ∧
    (expose_public a row st).nextRow = st.nextRow :=
  ⟨rfl, rfl, rfl, rfl, rfl, rfl⟩

set_option maxHeartbeats 1000000 in
/-- C10: in the synthesized table, no row ever has both `s_mul` and `s_add`
enabled (each selector is enabled only at relative row 0 of its own
`mul`/`add` region and regions occupy disjoint row ranges), so every row
enforces at most one of the two gate identities. -/
theorem C10_selectors_disjoint (k : F) (va vb vc : Option F) (r : Nat) :
    ∃ st, synthesize (2 ^ 5) ⟨k, va, vb, vc⟩ initState = .ok st ∧
      ¬(st.selMul r = true ∧ st.selAdd r = true) := by
  refine ⟨_, by rfl, ?_⟩
  intro hc
  obtain ⟨h1, h2⟩ := hc
  dsimp only [expose_public, addCopy, copy_advice, setAdvice, setFixed,
    enableMul, enableAdd, initState] at h1 h2
  split_ifs at h1 h2 <;> omega

/-- Witness for C4: a concrete 2-row table over `Int` with the `mul`
selector active at row 0 verifies, and the theorem instantiated there
yields `4 = 2 * 2`. -/
theorem C4_mul_gate_witness :
    MockProver.verify (⟨2, mulWitState, []⟩ : MockProver Int) = .ok () ∧
    (4 : Int) = 2 * 2 := by
  have hver : MockProver.verify (⟨2, mulWitState, []⟩ : MockProver Int) =
      .ok () := by
    simp [MockProver.verify, violationsOf, gateViolations, evalExpr, mulGate,
      addGate, mulWitState, vmul, vadd, vsub, List.range_succ]
  exact ⟨hver,
    (C4_mul_gate mulWitState [] 2 0 2 2 4 (by omega) (by rfl) (by rfl)
      (by rfl) (by rfl)).1 hver⟩

/-- Witness for C5: a concrete 2-row table over `Int` with the `add`
selector active at row 0 verifies, and the theorem instantiated there
yields `16 = 4 + 12`. -/
theorem C5_add_gate_witness :
    MockProver.verify (⟨2, addWitState, []⟩ : MockProver Int) = .ok () ∧
    (16 : Int) = 4 + 12 := by
  have hver : MockProver.verify (⟨2, addWitState, []⟩ : MockProver Int) =
      .ok () := by
    simp [MockProver.verify, violationsOf, gateViolations, evalExpr, mulGate,
      addGate, addWitState, vmul, vadd, vsub, List.range_succ]
  exact ⟨hver,
    (C5_add_gate addWitState [] 2 0 4 12 16 (by omega) (by rfl) (by rfl)
      (by rfl) (by rfl)).1 hver⟩

/-- Witness for C6: the `mul` region shape at a concrete input over `Int`
(inputs `2` and `3`, starting from the empty state with capacity 2). -/
theorem C6_mul_region_witness :
    ∃ out st2,
      mul 2 (⟨⟨.adviceCol 0, 0⟩, some (2 : Int)⟩ : Number Int)
          ⟨⟨.adviceCol 1, 0⟩, some 3⟩ initState = .ok (out, st2) ∧
      st2.nextRow = 0 + 2 ∧
      st2.advice 0 0 = some 2 ∧
      st2.advice 1 0 = some 3 ∧
      ((⟨.adviceCol 0, 0⟩ : Cell),
        (⟨.adviceCol 0, 0⟩ : Cell)) ∈ st2.copies ∧
      ((⟨.adviceCol 1, 0⟩ : Cell),
        (⟨.adviceCol 1, 0⟩ : Cell)) ∈ st2.copies ∧
      st2.selMul 0 = true ∧
      st2.advice 0 (0 + 1) = out.val ∧
      out.val = some (2 * 3) ∧
      (out.val.isSome ↔
        ((some (2 : Int)).isSome ∧ (some (3 : Int)).isSome)) :=
  C6_mul_region _ _ initState 2 (by decide)

end Proofs

end Halo2Hi
